import Mathlib

/-!
# Verification of the cw-streamswap stream accounting engine

Shallow embedding of the StreamSwap contract sources:

* `src/src/state.rs` — stream/position data model, `compute_shares_amount`;
* `src/src/contract.rs` — the block-based engine: `update_stream`,
  `calculate_diff`, `update_position`, `execute_subscribe`,
  `execute_update_stream`, `query_average_price`;
* `src/src/killswitch.rs` — `execute_exit_cancelled`, `execute_cancel_stream`;
* `src/contracts/stream/src/contract.rs` — the time-based variant's
  `execute_finalize_stream` settlement message builder.

Machine integers: `Uint128`/`Uint256` are modelled as `Nat` with explicit
bound checks against `2^128` / `2^256` wherever the source uses checked
arithmetic or a panicking primitive operation (panic and checked error are
both modelled as `none` / a thrown error).  `Decimal`/`Decimal256` values are
modelled by their atomics (numerator over the fixed denominator `10^18`).
-/

namespace StreamSwap

/-- Bound of `Uint128`: the value `Uint128::MAX + 1`. -/
def U128 : Nat := 2 ^ 128

/-- Bound of `Uint256`: the value `Uint256::MAX + 1`. -/
def U256 : Nat := 2 ^ 256

/-- The fixed fractional denominator of `Decimal` / `Decimal256`
(18 decimal digits). -/
def E18 : Nat := 10 ^ 18

/-- Embedding of `Status` from `src/src/state.rs`. -/
inductive Status where
  | Waiting
  | Active
  | Finalized
  | Paused
  | Cancelled
  | ChainHalted
  deriving DecidableEq, Repr

/-- The `Stream` record, following `src/src/state.rs` restricted to the
fields the embedded operations read or write (display metadata such as
`name`/`url` is omitted).  The block-based contract (`src/src/contract.rs`)
addresses streams by block heights, so the `*_block` fields are used.
`dist_index` and `current_streamed_price` are decimal atomics. -/
structure Stream where
  treasury : String
  dist_index : Nat
  last_updated_block : Nat
  out_denom : String
  out_supply : Nat
  out_remaining : Nat
  in_denom : String
  in_supply : Nat
  spent_in : Nat
  shares : Nat
  start_block : Nat
  end_block : Nat
  current_streamed_price : Nat
  status : Status
  pause_block : Option Nat
  stream_creation_denom : String
  stream_creation_fee : Nat
  stream_exit_fee_percent : Nat
  stream_creator_addr : String
  deriving DecidableEq, Repr

/-- The `Position` record from `src/src/state.rs` (with
`last_updated_block` as written by `src/src/contract.rs`).
`index` and `pending_purchase` are `Decimal256` atomics. -/
structure Position where
  owner : String
  in_balance : Nat
  shares : Nat
  index : Nat
  last_updated_block : Nat
  purchased : Nat
  pending_purchase : Nat
  spent : Nat
  operator : Option String
  deriving DecidableEq, Repr

/-- Embedding of `Stream::compute_shares_amount` from `src/src/state.rs` (lines
172-184).  The source guard is `self.shares.is_zero() || amount_in.is_zero()`;
otherwise it computes `self.shares.mul(amount_in)` (a panicking `Mul`,
modelled as `none` on 128-bit overflow) and divides by `self.in_supply`
(rounding up via `(x + in_supply - 1) / in_supply` when `round_up`), where
`Uint128` addition panics on overflow, subtraction on underflow and division
on a zero divisor — each modelled as `none`. -/
def Stream.compute_shares_amount (s : Stream) (amount_in : Nat) (round_up : Bool) :
    Option Nat :=
  if s.shares = 0 ∨ amount_in = 0 then
    some amount_in
  else if U128 ≤ s.shares * amount_in then
    none
  else
    let p := s.shares * amount_in
    if round_up then
      if U128 ≤ p + s.in_supply then none
      else if p + s.in_supply = 0 then none
      else if s.in_supply = 0 then none
      else some ((p + s.in_supply - 1) / s.in_supply)
    else
      if s.in_supply = 0 then none
      else some (p / s.in_supply)

/-- Embedding of `Stream::is_killswitch_active` from `src/src/state.rs`. -/
def Stream.is_killswitch_active (s : Stream) : Prop :=
  s.status = Status.Cancelled ∨ s.status = Status.Paused

instance (s : Stream) : Decidable s.is_killswitch_active := by
  unfold Stream.is_killswitch_active; infer_instance

/-- Embedding of `calculate_diff` from `src/src/contract.rs` (lines 408-423), returning
the `Decimal` atomics of `(min now end − last) / (end − last)`.  The source
clamps `now_block` to `end_block`, uses `saturating_sub` (Nat subtraction)
for numerator and denominator, returns `Decimal::zero()` when either is
zero, and `Decimal::from_ratio(num, den)` otherwise (atomics
`num * 10^18 / den`; `num ≤ den` here, so `from_ratio` cannot overflow). -/
def calculateDiff (endBlock lastUpdatedBlock nowBlock : Nat) : Nat :=
  let nb := min nowBlock endBlock
  let numerator := nb - lastUpdatedBlock
  let denominator := endBlock - lastUpdatedBlock
  if denominator = 0 ∨ numerator = 0 then 0
  else numerator * E18 / denominator

/-- The tail of `update_stream` (`src/src/contract.rs` lines 396-403):
`last_updated_block` is set to `start_block` when `now < start_block`,
otherwise to `now`, additionally promoting a `Waiting` stream to `Active`. -/
def finishUpdate (nowBlock : Nat) (s : Stream) : Stream :=
  if nowBlock < s.start_block then
    { s with last_updated_block := s.start_block }
  else
    { s with
        status := if s.status = Status.Waiting then Status.Active else s.status
        last_updated_block := nowBlock }

/-- Embedding of `update_stream` from `src/src/contract.rs` (lines 352-406).  Returns the
updated stream together with the returned pair `(diff, new_distribution_balance)`
(`diff` as `Decimal` atomics).  `multiply_ratio(diff.numerator(), diff.denominator())`
is `x * diffAtomics / 10^18` (exact 256-bit intermediate, floor division; the
result never exceeds `x` because `diffAtomics ≤ 10^18`, so its overflow panic
is unreachable); `checked_add`/`checked_sub` failures and the
`Decimal::from_ratio(spent_in, new_distribution_balance)` overflow panic are
modelled as `none`. -/
def updateStream (nowBlock : Nat) (s : Stream) : Option (Stream × Nat × Nat) :=
  let diff := calculateDiff s.end_block s.last_updated_block nowBlock
  if s.shares = 0 ∨ diff = 0 then
    some (finishUpdate nowBlock s, diff, 0)
  else
    let newDist := s.out_remaining * diff / E18
    let spent := s.in_supply * diff / E18
    if U128 ≤ s.spent_in + spent then none
    else if s.in_supply < spent then none
    else
      let s1 := { s with
        spent_in := s.spent_in + spent
        in_supply := s.in_supply - spent }
      if newDist = 0 then
        some (finishUpdate nowBlock s1, diff, newDist)
      else if s.out_remaining < newDist then none
      else
        let idxAdd := newDist * E18 / s.shares
        if U256 ≤ s.dist_index + idxAdd then none
        else
          let price := spent * E18 / newDist
          if U128 ≤ price then none
          else
            some (finishUpdate nowBlock
              { s1 with
                  out_remaining := s.out_remaining - newDist
                  dist_index := s.dist_index + idxAdd
                  current_streamed_price := price }, diff, newDist)

/-- Modelled from the spec: `get_decimals` lives in `crate::helpers`
(`helpers.rs`), which is not present under `src/`.  The spec (§4.5) states
`purchased_int = floor(purchased_hp)`; `pos.pending_purchase = purchased_hp −
purchased_int`, i.e. `get_decimals` keeps exactly the fractional part of the
high-precision purchase.  On atomics over the fixed denominator `10^18` the
fractional part is the remainder modulo `10^18`. -/
def getDecimals (atomics : Nat) : Nat := atomics % E18

/-- Embedding of `update_position` from `src/src/contract.rs` (lines 468-511); the
time-based variant (`src/contracts/stream/src/contract.rs` lines 256-299) is
the same computation.  Arguments are the stream's `dist_index` (atomics),
`shares`, `last_updated_block` and `in_supply`.  Returns the updated position
and the returned pair `(purchased, spent)`.
`Decimal256::from_ratio(position.shares, 1)` has atomics `shares * 10^18`;
`checked_mul` with `index_diff` yields atomics `shares * indexDiff` exactly
(error on 256-bit overflow); `checked_add pending_purchase` likewise.
`(purchased * Uint256::one()).try_into()` floors the decimal
(`atomics / 10^18`) and errors if the result does not fit `Uint128`. -/
def updatePosition (streamDistIndex streamShares streamLastUpdatedBlock
    streamInSupply : Nat) (pos : Position) : Option (Position × Nat × Nat) :=
  if streamDistIndex < pos.index then none
  else
    let indexDiff := streamDistIndex - pos.index
    if streamShares = 0 then
      some ({ pos with
                index := streamDistIndex
                last_updated_block := streamLastUpdatedBlock }, 0, 0)
    else
      if U256 ≤ pos.shares * indexDiff then none
      else if U256 ≤ pos.shares * indexDiff + pos.pending_purchase then none
      else
        let purchased := pos.shares * indexDiff + pos.pending_purchase
        let decimals := getDecimals purchased
        if U128 ≤ streamInSupply * pos.shares then none
        else
          let inRemaining := streamInSupply * pos.shares / streamShares
          if pos.in_balance < inRemaining then none
          else
            let spent := pos.in_balance - inRemaining
            if U128 ≤ pos.spent + spent then none
            else
              let purchasedU := purchased / E18
              if U128 ≤ purchasedU then none
              else if U128 ≤ pos.purchased + purchasedU then none
              else
                some ({ pos with
                          spent := pos.spent + spent
                          in_balance := inRemaining
                          pending_purchase := decimals
                          purchased := pos.purchased + purchasedU
                          index := streamDistIndex
                          last_updated_block := streamLastUpdatedBlock },
                      purchasedU, spent)

/-- The positions store `positions/<owner>` restricted to one stream:
an association list keyed by the owner address. -/
abbrev Positions := List (String × Position)

/-- Storage read `POSITIONS.load / may_load`: first entry with the given key. -/
def lookupPos (ps : Positions) (k : String) : Option Position :=
  match ps with
  | [] => none
  | (k', p) :: rest => if k' = k then some p else lookupPos rest k

/-- Storage removal `POSITIONS.remove`: drop every entry with the given key. -/
def removePos (ps : Positions) (k : String) : Positions :=
  ps.filter (fun e => e.1 ≠ k)

/-- Storage write `POSITIONS.save`: overwrite the entry with the given key. -/
def insertPos (ps : Positions) (k : String) (p : Position) : Positions :=
  (k, p) :: removePos ps k

/-- The persistent state a single stream's operations touch:
the `Stream` singleton plus its positions map. -/
structure ContractState where
  stream : Stream
  positions : Positions
  deriving DecidableEq, Repr

/-- The error outcomes the embedded operations distinguish.  `Overflow`
stands for any failing checked-arithmetic step or panicking integer
primitive (the host rolls the transaction back either way). -/
inductive Err where
  | StreamPaused
  | StreamKillswitchActive
  | StreamEnded
  | StreamNotCancelled
  | StreamIsCancelled
  | StreamNotPaused
  | Unauthorized
  | NotFound
  | Overflow
  | PaymentNoFunds
  | PaymentMultipleDenoms
  | PaymentMissingDenom
  deriving DecidableEq, Repr

/-- Embedding of a `Coin` of the host's bank module. -/
structure Coin where
  denom : String
  amount : Nat
  deriving DecidableEq, Repr

/-- The asset-movement / pool messages emitted by settlement operations
(`BankMsg::Send`, the carried pool-creation message, and
`MsgCreatePosition` restricted to the fields the contract fills in). -/
inductive Msg where
  | bankSend (toAddress denom : String) (amount : Nat)
  | createPool
  | createPosition (poolId : Nat) (sender : String)
      (tokensProvided : List (String × Nat))
  deriving DecidableEq, Repr

/-- Embedding of `cw_utils::must_pay`: exactly one coin must be attached, of the given
denom, with a nonzero amount. -/
def mustPay (funds : List Coin) (denom : String) : Except Err Nat :=
  match funds with
  | [] => .error .PaymentNoFunds
  | [c] =>
      if c.amount = 0 then .error .PaymentNoFunds
      else if c.denom ≠ denom then .error .PaymentMissingDenom
      else .ok c.amount
  | _ :: _ :: _ => .error .PaymentMultipleDenoms

/-- Embedding of `execute_update_stream` from `src/src/contract.rs` (lines 329-350):
reject paused streams, advance the stream, persist it.  Positions are not
touched.  A returned error rolls the whole transaction back, so errors carry
no state. -/
def executeUpdateStream (nowBlock : Nat) (st : ContractState) :
    Except Err ContractState :=
  if st.stream.status = Status.Paused then .error .StreamPaused
  else
    match updateStream nowBlock st.stream with
    | none => .error .Overflow
    | some (s', _, _) => .ok { st with stream := s' }

/-- Embedding of `execute_subscribe` from `src/src/contract.rs` (lines 513-590).
Takes the current block, the sender, the attached funds, the optional
operator and operator target.  A fresh position requires
`operator_target == sender`; an existing position requires owner/operator
access (`check_access`: reject when the owner differs from the sender and
the operator is not the sender). -/
def executeSubscribe (nowBlock : Nat) (sender : String) (funds : List Coin)
    (operator operatorTarget : Option String) (st : ContractState) :
    Except Err ContractState :=
  let stream := st.stream
  if stream.is_killswitch_active then .error .StreamKillswitchActive
  else if stream.end_block ≤ nowBlock then .error .StreamEnded
  else
    match mustPay funds stream.in_denom with
    | .error e => .error e
    | .ok inAmount =>
      let target := operatorTarget.getD sender
      match lookupPos st.positions target with
      | none =>
        if target ≠ sender then .error .Unauthorized
        else
          match updateStream nowBlock stream with
          | none => .error .Overflow
          | some (s1, _, _) =>
            match s1.compute_shares_amount inAmount false with
            | none => .error .Overflow
            | some newShares =>
              let newPos : Position :=
                { owner := sender
                  in_balance := inAmount
                  shares := newShares
                  index := s1.dist_index
                  last_updated_block := nowBlock
                  purchased := 0
                  pending_purchase := 0
                  spent := 0
                  operator := operator }
              if U128 ≤ s1.in_supply + inAmount then .error .Overflow
              else if U128 ≤ s1.shares + newShares then .error .Overflow
              else
                .ok ⟨{ s1 with
                         in_supply := s1.in_supply + inAmount
                         shares := s1.shares + newShares },
                     insertPos st.positions target newPos⟩
      | some pos =>
        if pos.owner ≠ sender ∧ pos.operator ≠ some sender then
          .error .Unauthorized
        else
          match updateStream nowBlock stream with
          | none => .error .Overflow
          | some (s1, _, _) =>
            match s1.compute_shares_amount inAmount false with
            | none => .error .Overflow
            | some newShares =>
              match updatePosition s1.dist_index s1.shares
                  s1.last_updated_block s1.in_supply pos with
              | none => .error .Overflow
              | some (pos1, _, _) =>
                if U128 ≤ pos1.in_balance + inAmount then .error .Overflow
                else if U128 ≤ pos1.shares + newShares then .error .Overflow
                else
                  let pos2 := { pos1 with
                    in_balance := pos1.in_balance + inAmount
                    shares := pos1.shares + newShares }
                  if U128 ≤ s1.in_supply + inAmount then .error .Overflow
                  else if U128 ≤ s1.shares + newShares then .error .Overflow
                  else
                    .ok ⟨{ s1 with
                             in_supply := s1.in_supply + inAmount
                             shares := s1.shares + newShares },
                         insertPos st.positions target pos2⟩

/-- Embedding of `execute_exit_cancelled` from `src/src/killswitch.rs` (lines 90-142).
The position is not synced ("no need to update position here"); the holder
is paid `in_balance + spent` of the in denom, the position is removed, and
`stream.shares` / `stream.in_supply` are decremented (checked). -/
def executeExitCancelled (sender : String) (operatorTarget : Option String)
    (st : ContractState) : Except Err (ContractState × List Msg) :=
  let stream := st.stream
  if ¬ stream.status = Status.Cancelled then .error .StreamNotCancelled
  else
    let target := operatorTarget.getD sender
    match lookupPos st.positions target with
    | none => .error .NotFound
    | some position =>
      if position.owner ≠ sender ∧ position.operator ≠ some sender then
        .error .Unauthorized
      else if U128 ≤ position.in_balance + position.spent then .error .Overflow
      else
        let totalBalance := position.in_balance + position.spent
        if stream.shares < position.shares then .error .Overflow
        else if stream.in_supply < totalBalance then .error .Overflow
        else
          .ok (⟨{ stream with
                    shares := stream.shares - position.shares
                    in_supply := stream.in_supply - totalBalance },
                removePos st.positions target⟩,
               [Msg.bankSend target stream.in_denom totalBalance])

/-- The `Config` fields `execute_cancel_stream` reads
(`src/src/state.rs` as used by `src/src/killswitch.rs`). -/
structure Config where
  protocol_admin : String
  min_blocks_until_start_block : Nat
  deriving DecidableEq, Repr

/-- Embedding of `execute_cancel_stream` from `src/src/killswitch.rs` (lines 225-285).
Guards: sender must be protocol admin, stream creator, or sudo; a cancelled
stream cannot be cancelled again; a non-paused stream can only be cancelled
by its creator; a creator cancel requires at least
`min_blocks_until_start_block / 2` blocks before start
(`start_block.checked_sub(now).unwrap_or(0)` is Nat subtraction).  On
success: status `Cancelled`, `in_supply += spent_in` (checked),
`spent_in := 0`, and two refunds to the treasury. -/
def executeCancelStream (isSudo : Bool) (sender : String) (cfg : Config)
    (nowBlock : Nat) (st : ContractState) :
    Except Err (ContractState × List Msg) :=
  let stream := st.stream
  if cfg.protocol_admin ≠ sender ∧ stream.stream_creator_addr ≠ sender ∧
      isSudo = false then .error .Unauthorized
  else if stream.status = Status.Cancelled then .error .StreamIsCancelled
  else if ¬ stream.status = Status.Paused ∧
      stream.stream_creator_addr ≠ sender then .error .StreamNotPaused
  else if stream.stream_creator_addr = sender ∧
      stream.start_block - nowBlock < cfg.min_blocks_until_start_block / 2 then
    .error .Unauthorized
  else if U128 ≤ stream.in_supply + stream.spent_in then .error .Overflow
  else
    .ok (⟨{ stream with
              status := Status.Cancelled
              in_supply := stream.in_supply + stream.spent_in
              spent_in := 0 },
          st.positions⟩,
         [Msg.bankSend stream.treasury stream.out_denom stream.out_supply,
          Msg.bankSend stream.treasury stream.stream_creation_denom
            stream.stream_creation_fee])

/-- Embedding of `query_average_price` from `src/src/contract.rs` (lines 1303-1312); the
time-based variant (lines 1010-1015 of
`src/contracts/stream/src/contract.rs`) is the same computation over
`out_asset.amount`.  `total_purchased = out_supply - out_remaining` uses the
plain `Sub` (panic on underflow) and `Decimal::from_ratio(spent_in,
total_purchased)` panics on a zero denominator and on atomics overflow —
all modelled as `none`.  The result is `Decimal` atomics. -/
def queryAveragePrice (s : Stream) : Option Nat :=
  if s.out_supply < s.out_remaining then none
  else
    let totalPurchased := s.out_supply - s.out_remaining
    if totalPurchased = 0 then none
    else
      let atomics := s.spent_in * E18 / totalPurchased
      if U128 ≤ atomics then none
      else some atomics

/-! ### The time-based variant's finalize settlement
(`src/contracts/stream/src/contract.rs`, lines 595-728).  The `Stream` type
of that variant lives in `streamswap_types` (not under `src/`); the record
below carries exactly the fields the message builder reads. -/

/-- The `create_pool` payload: `out_amount_clp` plus the carried
pool-creation message (opaque, represented by the `Msg.createPool`
constructor). -/
structure CreatePool where
  out_amount_clp : Nat
  deriving DecidableEq, Repr

/-- Embedding of `out_asset` of the time-based stream. -/
structure OutAsset where
  denom : String
  amount : Nat
  deriving DecidableEq, Repr

/-- The fields of the time-based `Stream` read by the finalize settlement
builder. -/
structure FStream where
  treasury : String
  in_denom : String
  out_asset : OutAsset
  out_remaining : Nat
  spent_in : Nat
  create_pool : Option CreatePool
  deriving DecidableEq, Repr

/-- The factory `Params` fields finalize reads. -/
structure FactoryParams where
  exit_fee_percent : Nat
  fee_collector : String
  deriving DecidableEq, Repr

/-- The swap-fee computation of `execute_finalize_stream` (lines 633-636):
`Decimal::from_ratio(spent_in, 1)` (atomics `spent_in * 10^18`, panic if it
does not fit `Uint128`), `checked_mul(exit_fee_percent)` (atomics
`spent_in * feeAtomics`, checked), then `* Uint128::one()` (floor,
`atomics / 10^18`). -/
def finalizeSwapFee (spentIn feeAtomics : Nat) : Option Nat :=
  if U128 ≤ spentIn * E18 then none
  else if U128 ≤ spentIn * feeAtomics then none
  else some (spentIn * feeAtomics / E18)

/-- The in-token amount paired into the initial liquidity position
(line 681): `(pool.out_amount_clp / stream.out_asset.amount) *
stream.spent_in`, i.e. plain `Uint128` floor division FIRST, then
multiplication. -/
def finalizeInClp (outAmountClp outAssetAmount spentIn : Nat) : Nat :=
  outAmountClp / outAssetAmount * spentIn

/-- Refinement reference, following the spec's words (§4.7): "compute
`in_clp = floor(out_amount_clp / out_asset.amount · spent_in)`" — the exact
rational `out_amount_clp / out_asset.amount` times `spent_in`, floored
once. -/
def specFinalizeInClp (outAmountClp outAssetAmount spentIn : Nat) : Nat :=
  outAmountClp * spentIn / outAssetAmount

/-- The settlement message list built by `execute_finalize_stream`
(lines 630-727), given the loaded stream, factory params, the optional new
treasury and the pool-manager's current `num_pools`.  Message order follows
the source: revenue and swap fee (dropped entirely when `spent_in == 0`),
the out-remaining refund, then — unconditionally when `create_pool` is set —
the pool-creation message and the initial-position message with `pool_id =
num_pools + 1`.  `Uint128` division by zero and multiplication overflow in
the `in_clp` expression are modelled as `none`.  After the messages are
assembled, the response's `total_sold` attribute (line 719) computes
`out_asset.amount.checked_sub(out_remaining)?`; when
`out_remaining > out_asset.amount` this aborts the whole call, so nothing
is emitted — modelled as the final `none` branch. -/
def buildFinalizeMessages (s : FStream) (p : FactoryParams)
    (newTreasury : Option String) (numPools : Nat) : Option (List Msg) :=
  let treasury := newTreasury.getD s.treasury
  match finalizeSwapFee s.spent_in p.exit_fee_percent with
  | none => none
  | some swapFee =>
    if s.spent_in < swapFee then none
    else
      let creatorRevenue := s.spent_in - swapFee
      let base :=
        if s.spent_in = 0 then ([] : List Msg)
        else [Msg.bankSend treasury s.in_denom creatorRevenue,
              Msg.bankSend p.fee_collector s.in_denom swapFee]
      let base :=
        if 0 < s.out_remaining then
          base ++ [Msg.bankSend treasury s.out_asset.denom s.out_remaining]
        else base
      let withPool : Option (List Msg) :=
        match s.create_pool with
        | none => some base
        | some pool =>
          if s.out_asset.amount = 0 then none
          else if U128 ≤ pool.out_amount_clp / s.out_asset.amount * s.spent_in
            then none
          else
            some (base ++
              [Msg.createPool,
               Msg.createPosition (numPools + 1) treasury
                 [(s.in_denom,
                   finalizeInClp pool.out_amount_clp s.out_asset.amount
                     s.spent_in),
                  (s.out_asset.denom, pool.out_amount_clp)]])
      match withPool with
      | none => none
      | some msgs =>
        if s.out_asset.amount < s.out_remaining then none
        else some msgs

/-- Sum of `in_balance` over all stored positions. -/
def sumInBalance (ps : Positions) : Nat :=
  ps.foldr (fun e acc => e.2.in_balance + acc) 0

/-- A concrete stream used by counterexamples and witnesses below. -/
def baseStream : Stream :=
  { treasury := "treasury"
    dist_index := 0
    last_updated_block := 0
    out_denom := "out"
    out_supply := 1000
    out_remaining := 1000
    in_denom := "in"
    in_supply := 0
    spent_in := 0
    shares := 0
    start_block := 0
    end_block := 100
    current_streamed_price := 0
    status := Status.Active
    pause_block := none
    stream_creation_denom := "fee"
    stream_creation_fee := 1
    stream_exit_fee_percent := 0
    stream_creator_addr := "creator" }

/-- A concrete empty position used to build example positions. -/
def basePosition : Position :=
  { owner := "alice"
    in_balance := 0
    shares := 0
    index := 0
    last_updated_block := 0
    purchased := 0
    pending_purchase := 0
    spent := 0
    operator := none }

/-- Example stream with one subscriber's 100 input tokens staked. -/
def streamC1 : Stream := { baseStream with in_supply := 100, shares := 100 }

/-- The subscriber position matching `streamC1`. -/
def posAlice100 : Position := { basePosition with in_balance := 100, shares := 100 }

/-- Example contract state: `streamC1` plus its single position. -/
def stC1 : ContractState := ⟨streamC1, [("alice", posAlice100)]⟩

/-- The stream state after advancing `streamC1` to block 50: half of the
remaining output (500) distributed, half of the input (50) spent. -/
def streamC1After : Stream :=
  { baseStream with
      in_supply := 50
      shares := 100
      spent_in := 50
      out_remaining := 500
      dist_index := 5 * 10 ^ 18
      current_streamed_price := 10 ^ 17
      last_updated_block := 50 }

/-- The contract state after `executeUpdateStream 50 stC1`. -/
def stC1After : ContractState := ⟨streamC1After, [("alice", posAlice100)]⟩

/-- Example position for the sync witness: 3 of the stream's 6 shares,
10 input tokens, half a unit of pending purchase. -/
def posC3 : Position :=
  { basePosition with
      in_balance := 10
      shares := 3
      index := 10 ^ 18
      pending_purchase := 5 * 10 ^ 17 }

/-- Result of syncing `posC3` against `dist_index = 2`, 6 stream shares,
12 remaining input, at block 77. -/
def posC3After : Position :=
  { basePosition with
      in_balance := 6
      shares := 3
      index := 2 * 10 ^ 18
      last_updated_block := 77
      purchased := 3
      pending_purchase := 5 * 10 ^ 17
      spent := 4 }

/-- Example stream with positive shares but zero `in_supply`. -/
def streamC4 : Stream := { baseStream with shares := 2, in_supply := 0 }

/-- Example stream with positive shares and positive `in_supply`. -/
def streamC4w : Stream := { baseStream with shares := 2, in_supply := 5 }

/-- Example finalize-variant stream: nothing spent, half the supply still
remaining (`out_remaining ≤ out_asset.amount`, as in every reachable
state), pool creation requested. -/
def sC6 : FStream :=
  { treasury := "treasury"
    in_denom := "in"
    out_asset := ⟨"out", 20⟩
    out_remaining := 10
    spent_in := 0
    create_pool := some ⟨5⟩ }

/-- Example factory params for the finalize examples. -/
def pC6 : FactoryParams := ⟨0, "collector"⟩

/-- Example position on a cancelled stream: 40 unspent, 30 spent. -/
def posC7 : Position :=
  { basePosition with in_balance := 40, shares := 50, spent := 30 }

/-- Example cancelled-stream state holding `posC7`. -/
def stC7 : ContractState :=
  ⟨{ baseStream with status := Status.Cancelled, in_supply := 80, shares := 100 },
   [("alice", posC7)]⟩

/-- Example active-stream state with no positions. -/
def stC9 : ContractState := ⟨baseStream, []⟩

/-- Example config for the cancel witness. -/
def cfgC10 : Config := ⟨"admin", 10⟩

/-- Example paused-stream state: 30 input tokens spent, 20 still staked. -/
def stC10 : ContractState :=
  ⟨{ baseStream with
       status := Status.Paused
       in_supply := 20
       spent_in := 30
       shares := 50 },
   [("alice", posAlice100)]⟩

/-- The state after the protocol admin cancels `stC10`. -/
def stC10After : ContractState :=
  ⟨{ baseStream with
       status := Status.Cancelled
       in_supply := 50
       spent_in := 0
       shares := 50 },
   [("alice", posAlice100)]⟩

/-! ## Helper lemmas -/

theorem finishUpdate_start_block (n : Nat) (s : Stream) :
    (finishUpdate n s).start_block = s.start_block := by
  unfold finishUpdate; split <;> rfl

theorem finishUpdate_end_block (n : Nat) (s : Stream) :
    (finishUpdate n s).end_block = s.end_block := by
  unfold finishUpdate; split <;> rfl

theorem finishUpdate_in_supply (n : Nat) (s : Stream) :
    (finishUpdate n s).in_supply = s.in_supply := by
  unfold finishUpdate; split <;> rfl

theorem finishUpdate_last_updated (n : Nat) (s : Stream) :
    (finishUpdate n s).last_updated_block =
      if n < s.start_block then s.start_block else n := by
  by_cases h : n < s.start_block <;> simp [finishUpdate, h]

theorem calculateDiff_self (e st n : Nat) :
    calculateDiff e (if n < st then st else n) n = 0 := by
  unfold calculateDiff
  by_cases h : n < st
  · have hnum : min n e - st = 0 :=
      Nat.sub_eq_zero_of_le (le_trans (min_le_left _ _) (le_of_lt h))
    simp [h, hnum]
  · have hnum : min n e - n = 0 := Nat.sub_eq_zero_of_le (min_le_left _ _)
    simp [h, hnum]

theorem finishUpdate_idem (n : Nat) (s : Stream) :
    finishUpdate n (finishUpdate n s) = finishUpdate n s := by
  by_cases h : n < s.start_block
  · simp [finishUpdate, h]
  · by_cases hw : s.status = Status.Waiting <;> simp [finishUpdate, h, hw]

theorem updateStream_shape (now : Nat) (s s' : Stream) (d b : Nat)
    (h : updateStream now s = some (s', d, b)) :
    ∃ s1 : Stream, s' = finishUpdate now s1 := by
  simp only [updateStream] at h
  split at h
  · simp only [Option.some.injEq, Prod.mk.injEq] at h
    exact ⟨s, h.1.symm⟩
  · split at h
    · exact absurd h (by simp)
    · split at h
      · exact absurd h (by simp)
      · split at h
        · simp only [Option.some.injEq, Prod.mk.injEq] at h
          exact ⟨_, h.1.symm⟩
        · split at h
          · exact absurd h (by simp)
          · split at h
            · exact absurd h (by simp)
            · split at h
              · exact absurd h (by simp)
              · simp only [Option.some.injEq, Prod.mk.injEq] at h
                exact ⟨_, h.1.symm⟩

theorem updateStream_in_supply_le (now : Nat) (s s' : Stream) (d b : Nat)
    (h : updateStream now s = some (s', d, b)) :
    s'.in_supply ≤ s.in_supply := by
  simp only [updateStream] at h
  split at h
  · simp only [Option.some.injEq, Prod.mk.injEq] at h
    rw [← h.1, finishUpdate_in_supply]
  · split at h
    · exact absurd h (by simp)
    · split at h
      · exact absurd h (by simp)
      · split at h
        · simp only [Option.some.injEq, Prod.mk.injEq] at h
          rw [← h.1, finishUpdate_in_supply]
          exact Nat.sub_le _ _
        · split at h
          · exact absurd h (by simp)
          · split at h
            · exact absurd h (by simp)
            · split at h
              · exact absurd h (by simp)
              · simp only [Option.some.injEq, Prod.mk.injEq] at h
                rw [← h.1, finishUpdate_in_supply]
                exact Nat.sub_le _ _

/-! ## Claim theorems -/

/-- C2: for every stream state and block `t`, if `update_stream` succeeds at
`t` then running it again at the same `t` returns the stream unchanged,
distributes zero (`new_distribution_balance = 0`) and reports a zero elapsed
fraction (`diff = Decimal::zero()`); in particular `dist_index`,
`out_remaining`, `in_supply`, `spent_in` and `last_updated_block` do not
move beyond the first call's result. -/
theorem update_stream_idempotent (now : Nat) (s s' : Stream) (d b : Nat)
    (h : updateStream now s = some (s', d, b)) :
    updateStream now s' = some (s', 0, 0) := by
  obtain ⟨s1, rfl⟩ := updateStream_shape now s s' d b h
  have hd : calculateDiff (finishUpdate now s1).end_block
      (finishUpdate now s1).last_updated_block now = 0 := by
    rw [finishUpdate_end_block, finishUpdate_last_updated]
    exact calculateDiff_self _ _ _
  simp only [updateStream, hd]
  simp [finishUpdate_idem]

/-- Witness for C2 at a concrete advanced stream. -/
theorem update_stream_idempotent_witness :
    updateStream 50 streamC1After = some (streamC1After, 0, 0) :=
  update_stream_idempotent 50 streamC1 streamC1After (5 * 10 ^ 17) 500 (by decide)

/-- C1 counterexample: a reachable state (one subscriber holding 100 input
tokens, the sum of position `in_balance` equal to `stream.in_supply`) on
which the successful operation `execute_update_stream` at the window's
midpoint leaves the position sum at 100 while `stream.in_supply` drops to
50 — so the claimed invariant fails after a successful operation. -/
theorem update_stream_position_sum_counterexample :
    sumInBalance stC1.positions = stC1.stream.in_supply ∧
    (executeUpdateStream 50 stC1).toOption.map
        (fun st => (sumInBalance st.positions, st.stream.in_supply)) =
      some (100, 50) ∧ (100 : Nat) ≠ 50 := by
  refine ⟨by decide, by decide, by decide⟩

/-- C1 amended: `update_stream` never touches the positions map and
decreases `stream.in_supply` by exactly the amount it spends, so when the
sum of position `in_balance` equalled `in_supply` before the call, after the
call the sum equals `in_supply` plus the spent amount; the claimed equality
therefore survives a distribution advance only when that advance spends
nothing, and fails whenever it spends a positive amount. -/
theorem update_stream_position_sum_amended (now : Nat) (st st' : ContractState)
    (hsum : sumInBalance st.positions = st.stream.in_supply)
    (h : executeUpdateStream now st = .ok st') :
    st'.positions = st.positions ∧
    sumInBalance st'.positions =
      st'.stream.in_supply + (st.stream.in_supply - st'.stream.in_supply) ∧
    (st'.stream.in_supply < st.stream.in_supply →
      sumInBalance st'.positions ≠ st'.stream.in_supply) := by
  unfold executeUpdateStream at h
  split at h
  · exact absurd h (by simp)
  · revert h
    cases hu : updateStream now st.stream with
    | none => intro h; exact absurd h (by simp)
    | some r =>
      obtain ⟨s2, d, b⟩ := r
      intro h
      simp only [Except.ok.injEq] at h
      have hle : s2.in_supply ≤ st.stream.in_supply :=
        updateStream_in_supply_le now st.stream s2 d b hu
      subst h
      refine ⟨rfl, ?_, ?_⟩
      · simpa [hsum] using (Nat.add_sub_cancel' hle).symm
      · intro hlt
        simpa [hsum] using Nat.ne_of_gt hlt

/-- Witness for C1's amended statement on the concrete one-subscriber
state advanced to the window midpoint. -/
theorem update_stream_position_sum_amended_witness :
    stC1After.positions = stC1.positions ∧
    sumInBalance stC1After.positions =
      stC1After.stream.in_supply +
        (stC1.stream.in_supply - stC1After.stream.in_supply) ∧
    (stC1After.stream.in_supply < stC1.stream.in_supply →
      sumInBalance stC1After.positions ≠ stC1After.stream.in_supply) :=
  update_stream_position_sum_amended 50 stC1 stC1After (by decide) (by rfl)

/-- C3: with `stream.shares > 0`, a successful position sync credits
`position.purchased` by exactly the floor of the high-precision value
`position.shares · (stream.dist_index − position.index) +
position.pending_purchase`, stores its fractional remainder back in
`pending_purchase`, and the stored `pending_purchase` satisfies
`0 ≤ pending_purchase < 1`.  Stated over `Decimal256` atomics (denominator
`10^18`): the high-precision value's atomics are
`shares * indexDiffAtomics + pendingAtomics`, its floor is division by
`10^18`, its fractional part the remainder, and `pending_purchase < 1`
is `pendingAtomics < 10^18` (non-negativity is inherent to `Nat`). -/
theorem update_position_pending_purchase (dIdx shs lub inSup : Nat)
    (pos pos' : Position) (pu sp : Nat)
    (hsh : shs ≠ 0)
    (h : updatePosition dIdx shs lub inSup pos = some (pos', pu, sp)) :
    pos'.purchased = pos.purchased +
      (pos.shares * (dIdx - pos.index) + pos.pending_purchase) / E18 ∧
    pos'.pending_purchase =
      (pos.shares * (dIdx - pos.index) + pos.pending_purchase) % E18 ∧
    pos'.pending_purchase < E18 ∧
    pu = (pos.shares * (dIdx - pos.index) + pos.pending_purchase) / E18 := by
  have hE : 0 < E18 := by decide
  simp only [updatePosition, getDecimals] at h
  rw [if_neg hsh] at h
  split at h
  · exact absurd h (by simp)
  · split at h
    · exact absurd h (by simp)
    · split at h
      · exact absurd h (by simp)
      · split at h
        · exact absurd h (by simp)
        · split at h
          · exact absurd h (by simp)
          · split at h
            · exact absurd h (by simp)
            · split at h
              · exact absurd h (by simp)
              · split at h
                · exact absurd h (by simp)
                · simp only [Option.some.injEq, Prod.mk.injEq] at h
                  obtain ⟨h1, h2, h3⟩ := h
                  subst h1
                  refine ⟨rfl, rfl, Nat.mod_lt _ hE, h2.symm⟩

/-- Witness for C3 at a concrete position: stream index advanced by one
whole unit, three shares, half a unit pending. -/
theorem update_position_pending_purchase_witness :
    posC3After.purchased = posC3.purchased +
      (posC3.shares * (2 * 10 ^ 18 - posC3.index) + posC3.pending_purchase) / E18 ∧
    posC3After.pending_purchase =
      (posC3.shares * (2 * 10 ^ 18 - posC3.index) + posC3.pending_purchase) % E18 ∧
    posC3After.pending_purchase < E18 ∧
    (3 : Nat) = (posC3.shares * (2 * 10 ^ 18 - posC3.index) +
      posC3.pending_purchase) / E18 :=
  update_position_pending_purchase (2 * 10 ^ 18) 6 77 12 posC3 posC3After 3 4
    (by decide) (by decide)

/-- C4 counterexample: `compute_shares_amount` does not return the deposit
amount when `in_supply = 0` — with `shares = 2`, `in_supply = 0` and deposit
`a = 3` the source divides `shares·a` by the zero `in_supply` and panics
(modelled `none`), instead of returning `a = 3` as claimed. -/
theorem compute_shares_amount_counterexample :
    streamC4.shares ≠ 0 ∧ streamC4.in_supply = 0 ∧
    streamC4.compute_shares_amount 3 false = none ∧
    streamC4.compute_shares_amount 3 false ≠ some 3 := by
  refine ⟨by decide, by decide, by decide, by decide⟩

/-- C4 amended: `compute_shares_amount` returns the deposit `a` itself
whenever `stream.shares = 0` or `a = 0` (not when `in_supply = 0`);
when `shares ≠ 0`, `a ≠ 0` and `in_supply = 0` it fails with a division by
zero; otherwise — given that `shares·a` (and, when rounding up,
`shares·a + in_supply`) fits in 128 bits — it returns
`ceil(shares·a / in_supply)` when rounding up (computed as
`(shares·a + in_supply − 1) / in_supply`) and `floor(shares·a / in_supply)`
when rounding down. -/
theorem compute_shares_amount_amended (s : Stream) (a : Nat) (r : Bool)
    (hmul : s.shares * a < U128)
    (hadd : r = true → s.shares * a + s.in_supply < U128) :
    (s.shares = 0 ∨ a = 0 → s.compute_shares_amount a r = some a) ∧
    (s.shares ≠ 0 → a ≠ 0 → s.in_supply = 0 →
      s.compute_shares_amount a r = none) ∧
    (s.shares ≠ 0 → a ≠ 0 → s.in_supply ≠ 0 →
      s.compute_shares_amount a r =
        some (if r then (s.shares * a + s.in_supply - 1) / s.in_supply
              else s.shares * a / s.in_supply)) := by
  refine ⟨?_, ?_, ?_⟩
  · intro h0
    unfold Stream.compute_shares_amount
    rw [if_pos h0]
  · intro h1 h2 h3
    have hne : ¬ (s.shares = 0 ∨ a = 0) := by tauto
    have hp : s.shares * a ≠ 0 := Nat.mul_ne_zero h1 h2
    unfold Stream.compute_shares_amount
    rw [if_neg hne, if_neg (Nat.not_le.mpr hmul)]
    cases r with
    | false => simp [h3]
    | true =>
      have hno : ¬ U128 ≤ s.shares * a + s.in_supply :=
        Nat.not_le.mpr (hadd rfl)
      simp [hno, h3, hp]
  · intro h1 h2 h3
    have hne : ¬ (s.shares = 0 ∨ a = 0) := by tauto
    unfold Stream.compute_shares_amount
    rw [if_neg hne, if_neg (Nat.not_le.mpr hmul)]
    cases r with
    | false => simp [h3]
    | true =>
      have hno : ¬ U128 ≤ s.shares * a + s.in_supply :=
        Nat.not_le.mpr (hadd rfl)
      have hz : ¬ (s.shares * a + s.in_supply = 0) := by
        intro hh
        exact h3 (by omega)
      simp [hno, hz, h3]

/-- Witness for C4's amended statement: a round-up share computation on a
stream with 2 shares and 5 input tokens. -/
theorem compute_shares_amount_amended_witness :
    streamC4w.compute_shares_amount 3 true =
      some (if true then
              (streamC4w.shares * 3 + streamC4w.in_supply - 1) / streamC4w.in_supply
            else streamC4w.shares * 3 / streamC4w.in_supply) :=
  (compute_shares_amount_amended streamC4w 3 true (by decide)
    (fun _ => by decide)).2.2 (by decide) (by decide) (by decide)

/-- C5: the source computes the initial-liquidity in-token amount as
`(out_amount_clp / out_asset.amount) * spent_in` — `Uint128` floor division
FIRST, then multiplication — not as the exact rational
`out_amount_clp / out_asset.amount` times `spent_in` floored once.  At
`out_amount_clp = 1`, `out_asset.amount = 2`, `spent_in = 100` the code
yields `0` while the spec's single-floor formula yields `50`. -/
theorem finalize_in_clp_rounding_bug :
    finalizeInClp 1 2 100 = 0 ∧ specFinalizeInClp 1 2 100 = 50 ∧
    finalizeInClp 1 2 100 ≠ specFinalizeInClp 1 2 100 := by
  refine ⟨by decide, by decide, by decide⟩

/-- C8: on a freshly created stream (`out_remaining = out_supply`, nothing
distributed) the `AveragePrice` query computes
`Decimal::from_ratio(spent_in, out_supply - out_remaining)` with a zero
denominator and panics (modelled `none`) — contradicting the claim that
queries never fail except on missing keys. -/
theorem average_price_division_by_zero :
    baseStream.out_remaining = baseStream.out_supply ∧
    queryAveragePrice baseStream = none := by
  refine ⟨by decide, by decide⟩

/-- C6 counterexample: a finalized stream with `spent_in = 0`,
`out_remaining = 10` of a 20-token out supply (a reachable configuration)
and `create_pool` set emits the out refund AND the pool-creation and
initial-liquidity-position messages — not only the refund as claimed. -/
theorem finalize_zero_spent_counterexample :
    buildFinalizeMessages sC6 pC6 none 0 =
      some [Msg.bankSend "treasury" "out" 10, Msg.createPool,
            Msg.createPosition 1 "treasury" [("in", 0), ("out", 5)]] ∧
    buildFinalizeMessages sC6 pC6 none 0 ≠
      some [Msg.bankSend "treasury" "out" 10] := by
  refine ⟨by decide, by decide⟩

/-- C6 amended: for a stream finalized with `spent_in = 0`, a positive out
supply (as instantiate guarantees) and `out_remaining ≤ out_asset.amount`
(true of every reachable stream, since `out_remaining` starts at
`out_asset.amount` and only decreases; otherwise the `total_sold`
attribute's `checked_sub` aborts the call and nothing is emitted), the
emitted messages are exactly the out-remaining refund (when
`out_remaining > 0`) and, when `create_pool` is set, additionally the
pool-creation message and the initial-liquidity-position message pairing
zero in tokens with `out_amount_clp`; no revenue and no swap-fee message
is emitted. -/
theorem finalize_zero_spent_amended (s : FStream) (p : FactoryParams)
    (nt : Option String) (np : Nat)
    (hsp : s.spent_in = 0)
    (ha : s.out_asset.amount ≠ 0)
    (hrem : s.out_remaining ≤ s.out_asset.amount) :
    buildFinalizeMessages s p nt np =
      some ((if 0 < s.out_remaining then
               [Msg.bankSend (nt.getD s.treasury) s.out_asset.denom
                  s.out_remaining]
             else []) ++
        (match s.create_pool with
         | none => []
         | some pool =>
             [Msg.createPool,
              Msg.createPosition (np + 1) (nt.getD s.treasury)
                [(s.in_denom, 0), (s.out_asset.denom, pool.out_amount_clp)]])) := by
  have h0 : ¬ U128 ≤ 0 := by decide
  have hnr : ¬ s.out_asset.amount < s.out_remaining := Nat.not_lt.mpr hrem
  simp only [buildFinalizeMessages, finalizeSwapFee, finalizeInClp, hsp,
    Nat.zero_mul, Nat.mul_zero, Nat.zero_div, h0, if_false, Nat.lt_irrefl,
    if_true]
  cases s.create_pool with
  | none => simp [hnr]
  | some pool => simp [ha, h0, hnr]

/-- Witness for C6's amended statement on the concrete zero-spent stream
with `create_pool` set. -/
theorem finalize_zero_spent_amended_witness :
    buildFinalizeMessages sC6 pC6 none 0 =
      some ((if 0 < sC6.out_remaining then
               [Msg.bankSend ((none : Option String).getD sC6.treasury)
                  sC6.out_asset.denom sC6.out_remaining]
             else []) ++
        (match sC6.create_pool with
         | none => []
         | some pool =>
             [Msg.createPool,
              Msg.createPosition (0 + 1) ((none : Option String).getD sC6.treasury)
                [(sC6.in_denom, 0), (sC6.out_asset.denom, pool.out_amount_clp)]])) :=
  finalize_zero_spent_amended sC6 pC6 none 0 (by decide) (by decide) (by decide)

theorem lookupPos_removePos (ps : Positions) (k : String) :
    lookupPos (removePos ps k) k = none := by
  induction ps with
  | nil => rfl
  | cons e rest ih =>
    by_cases h : e.1 = k
    · simpa [removePos, h] using ih
    · simpa [removePos, lookupPos, h] using ih

/-- C7: on a `Cancelled` stream, `execute_exit_cancelled` pays the holder
exactly `position.in_balance + position.spent` of the in denom, removes the
position from storage, and decrements `stream.shares` by `position.shares`
(it also decrements `in_supply` by the payout); on a stream that is not
`Cancelled` it fails with `StreamNotCancelled`.  The hypotheses are the
operation's own success conditions: the position exists, the sender passes
the owner/operator check, and the checked arithmetic fits. -/
theorem exit_cancelled_spec (sender : String) (opT : Option String)
    (st : ContractState) (pos : Position)
    (hcanc : st.stream.status = Status.Cancelled)
    (hpos : lookupPos st.positions (opT.getD sender) = some pos)
    (hauth : ¬ (pos.owner ≠ sender ∧ pos.operator ≠ some sender))
    (hov : pos.in_balance + pos.spent < U128)
    (hsh : pos.shares ≤ st.stream.shares)
    (hin : pos.in_balance + pos.spent ≤ st.stream.in_supply) :
    executeExitCancelled sender opT st =
      .ok (⟨{ st.stream with
                shares := st.stream.shares - pos.shares
                in_supply := st.stream.in_supply - (pos.in_balance + pos.spent) },
            removePos st.positions (opT.getD sender)⟩,
           [Msg.bankSend (opT.getD sender) st.stream.in_denom
              (pos.in_balance + pos.spent)]) ∧
    lookupPos (removePos st.positions (opT.getD sender)) (opT.getD sender) =
      none ∧
    (∀ st2 : ContractState, st2.stream.status ≠ Status.Cancelled →
      executeExitCancelled sender opT st2 = .error .StreamNotCancelled) := by
  refine ⟨?_, lookupPos_removePos _ _, ?_⟩
  · simp [executeExitCancelled, hcanc, hpos, hauth, Nat.not_le.mpr hov,
      Nat.not_lt.mpr hsh, Nat.not_lt.mpr hin]
  · intro st2 h2
    simp [executeExitCancelled, h2]

/-- Witness for C7 at a concrete cancelled stream with one position. -/
theorem exit_cancelled_spec_witness :
    executeExitCancelled "alice" none stC7 =
      .ok (⟨{ stC7.stream with
                shares := stC7.stream.shares - posC7.shares
                in_supply := stC7.stream.in_supply -
                  (posC7.in_balance + posC7.spent) },
            removePos stC7.positions ((none : Option String).getD "alice")⟩,
           [Msg.bankSend ((none : Option String).getD "alice")
              stC7.stream.in_denom (posC7.in_balance + posC7.spent)]) ∧
    lookupPos (removePos stC7.positions ((none : Option String).getD "alice"))
      ((none : Option String).getD "alice") = none ∧
    (∀ st2 : ContractState, st2.stream.status ≠ Status.Cancelled →
      executeExitCancelled "alice" none st2 = .error .StreamNotCancelled) :=
  exit_cancelled_spec "alice" none stC7 posC7 (by decide) (by decide)
    (by decide) (by decide) (by decide) (by decide)

/-- C9: when no position exists for the operator target and the target is
not the sender, subscribe fails with `Unauthorized` — only the owner
themselves can open their first position.  The returned error aborts the
whole transaction, so no position is created and the stream's `in_supply`
and `shares` are untouched. -/
theorem subscribe_new_position_unauthorized (nowBlock : Nat) (sender : String)
    (funds : List Coin) (operator operatorTarget : Option String)
    (st : ContractState) (a : Nat)
    (hks : ¬ st.stream.is_killswitch_active)
    (hend : nowBlock < st.stream.end_block)
    (hpay : mustPay funds st.stream.in_denom = .ok a)
    (hnopos : lookupPos st.positions (operatorTarget.getD sender) = none)
    (hneq : operatorTarget.getD sender ≠ sender) :
    executeSubscribe nowBlock sender funds operator operatorTarget st =
      .error .Unauthorized := by
  simp [executeSubscribe, hks, Nat.not_le.mpr hend, hpay, hnopos, hneq]

/-- Witness for C9: "bob" as operator target while "alice" sends, with no
position stored for "bob". -/
theorem subscribe_new_position_unauthorized_witness :
    executeSubscribe 10 "alice" [⟨"in", 5⟩] none (some "bob") stC9 =
      .error .Unauthorized :=
  subscribe_new_position_unauthorized 10 "alice" [⟨"in", 5⟩] none (some "bob")
    stC9 5 (by decide) (by decide) (by rfl) (by decide) (by decide)

/-- C10: a successful `execute_cancel_stream` starts from a non-cancelled
stream and sets its status to `Cancelled`, zeroes `spent_in`, sets
`in_supply` to the pre-call `in_supply + spent_in` (so `in_supply +
spent_in` is preserved), leaves `dist_index`, `out_remaining`,
`out_supply`, `shares` and all positions unchanged, and emits exactly the
refund of the full `out_supply` in the out denom and the stream creation
fee, both to the treasury. -/
theorem cancel_stream_effects (isSudo : Bool) (sender : String) (cfg : Config)
    (nowBlock : Nat) (st st' : ContractState) (msgs : List Msg)
    (h : executeCancelStream isSudo sender cfg nowBlock st = .ok (st', msgs)) :
    st.stream.status ≠ Status.Cancelled ∧
    st'.stream.status = Status.Cancelled ∧
    st'.stream.spent_in = 0 ∧
    st'.stream.in_supply = st.stream.in_supply + st.stream.spent_in ∧
    st'.stream.dist_index = st.stream.dist_index ∧
    st'.stream.out_remaining = st.stream.out_remaining ∧
    st'.stream.out_supply = st.stream.out_supply ∧
    st'.stream.shares = st.stream.shares ∧
    st'.positions = st.positions ∧
    msgs = [Msg.bankSend st.stream.treasury st.stream.out_denom
              st.stream.out_supply,
            Msg.bankSend st.stream.treasury st.stream.stream_creation_denom
              st.stream.stream_creation_fee] := by
  simp only [executeCancelStream] at h
  split at h
  · exact absurd h (by simp)
  · split at h
    · exact absurd h (by simp)
    · split at h
      · exact absurd h (by simp)
      · split at h
        · exact absurd h (by simp)
        · split at h
          · exact absurd h (by simp)
          · simp only [Except.ok.injEq, Prod.mk.injEq] at h
            obtain ⟨h1, h2⟩ := h
            subst h1
            subst h2
            exact ⟨by assumption, rfl, rfl, rfl, rfl, rfl, rfl, rfl, rfl, rfl⟩

/-- Witness for C10: the protocol admin cancels a paused stream that has
spent 30 of its 50 deposited input tokens. -/
theorem cancel_stream_effects_witness :
    stC10.stream.status ≠ Status.Cancelled ∧
    stC10After.stream.status = Status.Cancelled ∧
    stC10After.stream.spent_in = 0 ∧
    stC10After.stream.in_supply = stC10.stream.in_supply + stC10.stream.spent_in ∧
    stC10After.stream.dist_index = stC10.stream.dist_index ∧
    stC10After.stream.out_remaining = stC10.stream.out_remaining ∧
    stC10After.stream.out_supply = stC10.stream.out_supply ∧
    stC10After.stream.shares = stC10.stream.shares ∧
    stC10After.positions = stC10.positions ∧
    [Msg.bankSend stC10.stream.treasury stC10.stream.out_denom
       stC10.stream.out_supply,
     Msg.bankSend stC10.stream.treasury stC10.stream.stream_creation_denom
       stC10.stream.stream_creation_fee] =
    [Msg.bankSend stC10.stream.treasury stC10.stream.out_denom
       stC10.stream.out_supply,
     Msg.bankSend stC10.stream.treasury stC10.stream.stream_creation_denom
       stC10.stream.stream_creation_fee] :=
  cancel_stream_effects false "admin" cfgC10 0 stC10 stC10After
    [Msg.bankSend stC10.stream.treasury stC10.stream.out_denom
       stC10.stream.out_supply,
     Msg.bankSend stC10.stream.treasury stC10.stream.stream_creation_denom
       stC10.stream.stream_creation_fee] (by rfl)

end StreamSwap
